import Mathlib

/-!
# SmartEats client (`client/src/App.jsx`): pantry and search orchestration

A shallow embedding of the state transitions of the `App` component:
`addIngredient`, `removeIngredient`, `handleRecommend` and `searchRestaurants`.

* A JavaScript string is the list of its UTF-16 code units.
* `String.prototype.trim` is modelled concretely (ECMAScript WhiteSpace and
  LineTerminator code points).
* `String.prototype.toLowerCase` depends on the Unicode case tables of the host;
  it is a parameter `toLowerCase : JsString → JsString` of every definition that
  calls it.
* A JavaScript number is its IEEE-754 binary64 bit pattern.
* The `axios` calls are answered by an environment; a rejected promise and a
  `TypeError` are thrown values, and `try`/`catch` is a combinator of the
  execution monad `JsM`.
-/

namespace SmartEats

/-! ## JavaScript values -/

/-- A JavaScript string, as the sequence of its UTF-16 code units. -/
abbrev JsString := List Nat

/-- The code units of a string literal whose characters all lie in the Basic
Multilingual Plane. -/
def lit (s : String) : JsString := s.data.map Char.toNat

/-- ECMAScript `WhiteSpace` or `LineTerminator` code points: the characters that
`String.prototype.trim` strips. -/
def isTrimChar (c : Nat) : Bool :=
  c == 0x09 || c == 0x0A || c == 0x0B || c == 0x0C || c == 0x0D || c == 0x20 ||
  c == 0xA0 || c == 0x1680 || (0x2000 ≤ c && c ≤ 0x200A) || c == 0x2028 ||
  c == 0x2029 || c == 0x202F || c == 0x205F || c == 0x3000 || c == 0xFEFF

/-- The call `s.trimStart()`. -/
def trimStart (s : JsString) : JsString := s.dropWhile isTrimChar

/-- The call `s.trimEnd()`. -/
def trimEnd (s : JsString) : JsString := (s.reverse.dropWhile isTrimChar).reverse

/-- The call `s.trim()`: leading and trailing white space removed. -/
def trim (s : JsString) : JsString := trimEnd (trimStart s)

/-- ASCII-only lower-casing of one code unit: `A`..`Z` to `a`..`z`. -/
def asciiLowerUnit (c : Nat) : Nat := if 0x41 ≤ c ∧ c ≤ 0x5A then c + 0x20 else c

/-- The restriction of `toLowerCase` to Basic Latin letters; it agrees with the
built-in on every string of ASCII code units, and instantiates the
`toLowerCase` parameter in concrete runs. -/
def asciiToLowerCase (s : JsString) : JsString := s.map asciiLowerUnit

/-- A JavaScript number, as its IEEE-754 binary64 bit pattern. -/
structure JsNumber where
  bits : Nat
  deriving DecidableEq, Repr

namespace JsNumber

/-- The bit pattern is a NaN: exponent all ones, non-zero fraction. -/
def isNaN (x : JsNumber) : Bool :=
  (x.bits / 2 ^ 52) % 2 ^ 11 == 2047 && x.bits % 2 ^ 52 != 0

/-- The bit pattern is `+0` or `-0`. -/
def isZero (x : JsNumber) : Bool := x.bits % 2 ^ 63 == 0

/-- ECMAScript `ToBoolean` on a number: false for `+0`, `-0` and `NaN`. -/
def toBoolean (x : JsNumber) : Bool := !(x.isZero || x.isNaN)

/-- The literal `0`. -/
def zero : JsNumber := ⟨0⟩

/-- The literal `1`. -/
def one : JsNumber := ⟨0x3FF0000000000000⟩

/-- The literal `0.6`. -/
def pointSix : JsNumber := ⟨0x3FE3333333333333⟩

end JsNumber

/-- The `id` of a recipe: a number for a local recipe, a string for a web one. -/
inductive RecipeId where
  | num (n : JsNumber)
  | str (s : JsString)
  deriving DecidableEq, Repr

/-- A recipe as the UI holds it (`recipes` state). `steps` and `image` may be
`undefined`, rendered here as `none`. -/
structure RecipeResult where
  id : RecipeId
  name : JsString
  cuisine : JsString
  match_ratio : JsNumber
  required_ingredients : List JsString
  steps : Option JsString
  image : Option JsString
  deriving DecidableEq, Repr

/-- One element of `items` in the `/recipes/search-web` response:
`{ name, score?, instructions?: [string], url }`. An absent optional property
reads as `undefined`, rendered here as `none`. -/
structure WebItem where
  name : JsString
  score : Option JsNumber
  instructions : Option (List JsString)
  url : JsString
  deriving DecidableEq, Repr

/-- One element of `results` in the `/restaurants/search` response. -/
structure RestaurantResult where
  name : JsString
  rating : JsNumber
  address : JsString
  deriving DecidableEq, Repr

/-! ## Component state -/

/-- The `activeTab` state. -/
inductive Tab where
  | pantry
  | restaurants
  deriving DecidableEq, Repr

/-- The `useState` cells of `App`. -/
structure AppState where
  activeTab : Tab
  pantry : List JsString
  inputValue : JsString
  recipes : List RecipeResult
  loading : Bool
  selectedRecipe : Option RecipeResult
  restaurants : List RestaurantResult
  resLoading : Bool
  deriving DecidableEq, Repr

/-- The initial values passed to `useState`. -/
def AppState.initial : AppState :=
  { activeTab := Tab.pantry, pantry := [], inputValue := [], recipes := [],
    loading := false, selectedRecipe := none, restaurants := [], resLoading := false }

/-! ## Pantry transitions -/

/-- `addIngredient(ing)`:
```
const cleanIng = ing.trim().toLowerCase();
if (cleanIng && !pantry.includes(cleanIng)) { setPantry([...pantry, cleanIng]); }
setInputValue("");
``` -/
def addIngredient (toLowerCase : JsString → JsString) (ing : JsString) (st : AppState) :
    AppState :=
  let cleanIng := toLowerCase (trim ing)
  let st1 :=
    if cleanIng ≠ [] ∧ ¬ cleanIng ∈ st.pantry then
      { st with pantry := st.pantry ++ [cleanIng] }
    else st
  { st1 with inputValue := [] }

/-- `removeIngredient(ingToRemove)`:
`setPantry(pantry.filter(i => i !== ingToRemove))`. -/
def removeIngredient (ingToRemove : JsString) (st : AppState) : AppState :=
  { st with pantry := st.pantry.filter (fun i => i ≠ ingToRemove) }

/-- A user action on the pantry. -/
inductive PantryAction where
  | add (ing : JsString)
  | remove (ing : JsString)
  deriving DecidableEq, Repr

/-- One pantry action applied to the state. -/
def applyAction (toLowerCase : JsString → JsString) (st : AppState) :
    PantryAction → AppState
  | PantryAction.add ing => addIngredient toLowerCase ing st
  | PantryAction.remove ing => removeIngredient ing st

/-- A finite sequence of pantry actions, applied left to right. -/
def runActions (toLowerCase : JsString → JsString) (st : AppState)
    (acts : List PantryAction) : AppState :=
  acts.foldl (applyAction toLowerCase) st

/-! ## Execution of the asynchronous handlers -/

/-- A thrown value: a rejected `axios` promise, or a `TypeError` raised by a
property access on `undefined` or `null`. -/
inductive JsError where
  | rejected
  | typeError
  deriving DecidableEq, Repr

/-- The `data` of a `/recipes/recommend` response. `recipes` is `none` when the
property is missing, so that `results.length` raises a `TypeError`. -/
structure RecommendResponse where
  recipes : Option (List RecipeResult)
  deriving DecidableEq, Repr

/-- The `data` of a `/recipes/search-web` response. `items` is `none` when the
property is missing; an element is `none` when it is `null`. -/
structure WebSearchResponse where
  items : Option (List (Option WebItem))
  deriving DecidableEq, Repr

/-- The `data` of a `/restaurants/search` response. -/
structure RestaurantResponse where
  results : List RestaurantResult
  deriving DecidableEq, Repr

/-- The backend as the client sees it: the outcome of each request. -/
structure Env where
  recommend : List JsString → Except JsError RecommendResponse
  searchWeb : List JsString → Except JsError WebSearchResponse
  restaurants : JsString → Except JsError RestaurantResponse

/-- An HTTP request issued through `axios`. -/
inductive Request where
  | recommend (ingredients : List JsString)
  | searchWeb (ingredients : List JsString)
  | restaurantSearch (cuisine : JsString) (lat lng : JsNumber)
  deriving DecidableEq, Repr

/-- A line written to the console. -/
inductive LogEntry where
  | error (e : JsError)
  | log (msg : JsString) (e : JsError)
  deriving DecidableEq, Repr

/-- What a handler can observe and change: the component state, the requests
issued so far (oldest first) and the console. -/
structure World where
  ui : AppState
  requests : List Request
  console : List LogEntry
  deriving DecidableEq, Repr

/-- A computation that may change the world and may throw; changes made before a
throw persist. -/
def JsM (α : Type) : Type := World → Except JsError α × World

namespace JsM

/-- Normal completion with a value. -/
def ret {α : Type} (a : α) : JsM α := fun w => (Except.ok a, w)

/-- Sequencing: a throw in the first part skips the second. -/
def andThen {α β : Type} (m : JsM α) (f : α → JsM β) : JsM β := fun w =>
  match m w with
  | (Except.ok a, w1) => f a w1
  | (Except.error e, w1) => (Except.error e, w1)

/-- The statement `throw e`. -/
def raise {α : Type} (e : JsError) : JsM α := fun w => (Except.error e, w)

/-- The statement `try { body } catch (err) { handler }`. -/
def tryCatch {α : Type} (body : JsM α) (handler : JsError → JsM α) : JsM α := fun w =>
  match body w with
  | (Except.ok a, w1) => (Except.ok a, w1)
  | (Except.error e, w1) => handler e w1

/-- A state update that cannot throw. -/
def modify (f : World → World) : JsM Unit := fun w => (Except.ok (), f w)

/-- Lifting of a pure computation that may throw. -/
def ofExcept {α : Type} (r : Except JsError α) : JsM α := fun w => (r, w)

end JsM

instance : Monad JsM where
  pure := JsM.ret
  bind := JsM.andThen

/-- `setLoading(b)`. -/
def setLoading (b : Bool) : JsM Unit :=
  JsM.modify fun w => { w with ui := { w.ui with loading := b } }

/-- `setRecipes(rs)`. -/
def setRecipes (rs : List RecipeResult) : JsM Unit :=
  JsM.modify fun w => { w with ui := { w.ui with recipes := rs } }

/-- `setResLoading(b)`. -/
def setResLoading (b : Bool) : JsM Unit :=
  JsM.modify fun w => { w with ui := { w.ui with resLoading := b } }

/-- `setRestaurants(rs)`. -/
def setRestaurants (rs : List RestaurantResult) : JsM Unit :=
  JsM.modify fun w => { w with ui := { w.ui with restaurants := rs } }

/-- `console.error(err)`. -/
def consoleError (e : JsError) : JsM Unit :=
  JsM.modify fun w => { w with console := w.console ++ [LogEntry.error e] }

/-- `console.log(msg, e)`. -/
def consoleLog (msg : JsString) (e : JsError) : JsM Unit :=
  JsM.modify fun w => { w with console := w.console ++ [LogEntry.log msg e] }

/-- An awaited `axios` call: the request is recorded, then the promise settles as
the environment says. -/
def await {α : Type} (req : Request) (outcome : Except JsError α) : JsM α := fun w =>
  (outcome, { w with requests := w.requests ++ [req] })

/-- Reading a property that must be present for the next access to succeed: a
missing one makes that access raise a `TypeError`. -/
def required {α : Type} : Option α → JsM α
  | some a => JsM.ret a
  | none => JsM.raise JsError.typeError

/-- The decimal text of an array index, as a template literal prints it. -/
def indexText (idx : Nat) : JsString := (Nat.toDigits 10 idx).map Char.toNat

/-- The callback of `webRes.data.items.map((item, idx) => ...)`:
```
id: `web-${idx}`, name: item.name, cuisine: "Web Discovery",
match_ratio: item.score || 0.6, required_ingredients: [],
steps: item.instructions ? item.instructions[0] : "Click link to view source",
image: item.url
``` -/
def webItemToRecipe (item : WebItem) (idx : Nat) : RecipeResult :=
  { id := RecipeId.str (lit "web-" ++ indexText idx)
    name := item.name
    cuisine := lit "Web Discovery"
    match_ratio :=
      match item.score with
      | some s => if s.toBoolean then s else JsNumber.pointSix
      | none => JsNumber.pointSix
    required_ingredients := []
    steps :=
      match item.instructions with
      | some ins => ins[0]?
      | none => some (lit "Click link to view source")
    image := some item.url }

/-- The call `items.map(callback)` from index `idx` on; a `null` element makes
the callback raise a `TypeError` at `item.name`. -/
def mapWebItemsFrom (idx : Nat) : List (Option WebItem) → Except JsError (List RecipeResult)
  | [] => Except.ok []
  | none :: _ => Except.error JsError.typeError
  | some item :: rest =>
    match mapWebItemsFrom (idx + 1) rest with
    | Except.ok rs => Except.ok (webItemToRecipe item idx :: rs)
    | Except.error e => Except.error e

/-- The call `webRes.data.items.map(...)`. -/
def mapWebItems (items : List (Option WebItem)) : Except JsError (List RecipeResult) :=
  mapWebItemsFrom 0 items

/-- `handleRecommend(currentPantry)`:
```
setLoading(true);
try {
  const res = await axios.post(`${API_BASE}/recipes/recommend`, { ingredients: currentPantry });
  let results = res.data.recipes;
  if (results.length < 2) {
     try {
        const webRes = await axios.post(`${API_BASE}/recipes/search-web`, { ingredients: currentPantry });
        const webItems = webRes.data.items.map(...);
        results = [...results, ...webItems];
     } catch(e) { console.log("Web search failed", e); }
  }
  setRecipes(results);
} catch (err) { console.error(err); }
setLoading(false);
``` -/
def handleRecommend (env : Env) (currentPantry : List JsString) : JsM Unit := do
  setLoading true
  JsM.tryCatch
    (do
      let res ← await (Request.recommend currentPantry) (env.recommend currentPantry)
      let results ← required res.recipes
      let results ←
        if results.length < 2 then
          JsM.tryCatch
            (do
              let webRes ← await (Request.searchWeb currentPantry) (env.searchWeb currentPantry)
              let items ← required webRes.items
              let webItems ← JsM.ofExcept (mapWebItems items)
              pure (results ++ webItems))
            (fun e => do
              consoleLog (lit "Web search failed") e
              pure results)
        else pure results
      setRecipes results)
    (fun err => consoleError err)
  setLoading false

/-- The fixed latitude `41.808`. -/
def defaultLat : JsNumber := ⟨0x4044E76C8B439581⟩

/-- The fixed longitude `-72.249`. -/
def defaultLng : JsNumber := ⟨0xC0520FEF9DB22D0E⟩

/-- `searchRestaurants(cuisineType)`:
```
setResLoading(true);
try {
    const res = await axios.get(`${API_BASE}/restaurants/search`, {
        params: { cuisine: cuisineType, lat: 41.808, lng: -72.249 } });
    setRestaurants(res.data.results);
} catch (err) { console.error(err); }
setResLoading(false);
``` -/
def searchRestaurants (env : Env) (cuisineType : JsString) : JsM Unit := do
  setResLoading true
  JsM.tryCatch
    (do
      let res ← await (Request.restaurantSearch cuisineType defaultLat defaultLng)
        (env.restaurants cuisineType)
      setRestaurants res.results)
    (fun err => consoleError err)
  setResLoading false

/-- The world before any handler has run. -/
def World.initial : World := { ui := AppState.initial, requests := [], console := [] }

/-! ## Auxiliary notions used in the statements -/

/-- What every pantry the component can hold satisfies: no duplicate, no empty
entry, and every entry is the lower-cased trim of some text. -/
def PantryInv (toLowerCase : JsString → JsString) (p : List JsString) : Prop :=
  p.Nodup ∧ [] ∉ p ∧ ∀ e ∈ p, ∃ s, e = toLowerCase (trim s)

/-- The world `handleRecommend` leaves behind. -/
def recommendResult (w : World) (reqs : List Request) (logs : List LogEntry)
    (recipes : List RecipeResult) : World :=
  { ui := { w.ui with recipes := recipes, loading := false },
    requests := w.requests ++ reqs, console := w.console ++ logs }

/-- The number that a text of decimal digits denotes, read left to right. -/
def decimalValue (s : JsString) : Nat := s.foldl (fun acc c => 10 * acc + (c - 48)) 0

/-- The text `ds` is the decimal numeral of `n` as JavaScript prints a
non-negative integer: at least one character, only the digits `0`..`9`, of value
`n`, and no leading `0` other than the numeral `0` itself. -/
def IsDecimalOf (ds : JsString) (n : Nat) : Prop :=
  ds ≠ [] ∧ (∀ c ∈ ds, 48 ≤ c ∧ c ≤ 57) ∧ decimalValue ds = n ∧
  (ds.head? = some 48 → ds = [48])

/-! ## Concrete backends used in the worked runs -/

/-- A local recipe `{id: 1, match_ratio: 1, ...}`. -/
def omelette : RecipeResult :=
  { id := RecipeId.num JsNumber.one, name := lit "Omelette", cuisine := lit "French",
    match_ratio := JsNumber.one, required_ingredients := [lit "egg"],
    steps := some (lit "Beat and fry."), image := none }

/-- A second local recipe. -/
def friedRice : RecipeResult :=
  { id := RecipeId.num ⟨0x4000000000000000⟩, name := lit "Fried rice", cuisine := lit "Chinese",
    match_ratio := ⟨0x3FE0000000000000⟩, required_ingredients := [lit "egg", lit "rice"],
    steps := none, image := none }

/-- The web item `{name: "X", url: "u"}`. -/
def webX : WebItem := { name := lit "X", score := none, instructions := none, url := lit "u" }

/-- The web item `{name: "X", score: 0, url: "u"}`. -/
def webZeroScore : WebItem :=
  { name := lit "X", score := some JsNumber.zero, instructions := none, url := lit "u" }

/-- The web item `{name: "X", instructions: [], url: "u"}`. -/
def webNoSteps : WebItem :=
  { name := lit "X", score := none, instructions := some [], url := lit "u" }

/-- A restaurant. -/
def pizzeria : RestaurantResult :=
  { name := lit "Pizzeria", rating := ⟨0x4012000000000000⟩, address := lit "1 Main St" }

/-- A backend: one local match, one web item; restaurants found for `"Italian"`
(one) and `"Thai"` (none), every other restaurant search rejected. -/
def demoEnv : Env :=
  { recommend := fun _ => Except.ok ⟨some [omelette]⟩
    searchWeb := fun _ => Except.ok ⟨some [some webX]⟩
    restaurants := fun c =>
      if c = lit "Italian" then Except.ok ⟨[pizzeria]⟩
      else if c = lit "Thai" then Except.ok ⟨[]⟩
      else Except.error JsError.rejected }

/-- A backend with two local matches. -/
def twoLocalEnv : Env :=
  { demoEnv with recommend := fun _ => Except.ok ⟨some [omelette, friedRice]⟩ }

/-- A backend with no local match and a web-search response holding a `null`. -/
def webBrokenEnv : Env :=
  { demoEnv with
    recommend := fun _ => Except.ok ⟨some []⟩
    searchWeb := fun _ => Except.ok ⟨some [some webX, none]⟩ }

/-- A backend whose recommend call is rejected. -/
def downEnv : Env :=
  { demoEnv with recommend := fun _ => Except.error JsError.rejected }

/-- The web item `{name: "Y", url: "v"}`. -/
def webY : WebItem := { name := lit "Y", score := none, instructions := none, url := lit "v" }

/-- A backend with no local match and twelve web items, `X` and `Y` in turn. -/
def manyWebEnv : Env :=
  { demoEnv with
    recommend := fun _ => Except.ok ⟨some []⟩
    searchWeb := fun _ => Except.ok ⟨some ([webX, webY, webX, webY, webX, webY, webX, webY,
      webX, webY, webX, webY].map some)⟩ }

/-! ## Facts about `trim` and the ASCII lower-casing -/

theorem isTrimChar_asciiLowerUnit (c : Nat) :
    isTrimChar (asciiLowerUnit c) = isTrimChar c := by
  unfold asciiLowerUnit
  split_ifs with h
  · obtain ⟨h1, h2⟩ := h
    interval_cases c <;> decide
  · rfl

theorem asciiLowerUnit_idem (c : Nat) : asciiLowerUnit (asciiLowerUnit c) = asciiLowerUnit c := by
  unfold asciiLowerUnit
  split_ifs <;> omega

theorem asciiToLowerCase_idem (t : JsString) :
    asciiToLowerCase (asciiToLowerCase t) = asciiToLowerCase t := by
  simp [asciiToLowerCase, asciiLowerUnit_idem]

theorem dropWhile_map_asciiLowerUnit (t : JsString) :
    (t.map asciiLowerUnit).dropWhile isTrimChar
      = (t.dropWhile isTrimChar).map asciiLowerUnit := by
  induction t with
  | nil => rfl
  | cons c t ih =>
    simp only [List.map_cons, List.dropWhile_cons, isTrimChar_asciiLowerUnit]
    split <;> simp [ih]

theorem trim_asciiToLowerCase (t : JsString) :
    trim (asciiToLowerCase t) = asciiToLowerCase (trim t) := by
  simp only [trim, trimEnd, trimStart, asciiToLowerCase, dropWhile_map_asciiLowerUnit,
    ← List.map_reverse]

theorem dropWhile_of_prefix (q : Nat → Bool) (u v : List Nat) (hv : v <+: u)
    (hu : ∀ h : u ≠ [], q (u.head h) = false) : v.dropWhile q = v := by
  cases v with
  | nil => rfl
  | cons a l =>
    obtain ⟨r, hr⟩ := hv
    subst hr
    have ha : q a = false := hu (by simp)
    simp [List.dropWhile_cons, ha]

theorem trimStart_trim (t : JsString) : trimStart (trim t) = trim t := by
  have hpre : trim t <+: trimStart t := by
    simpa [trim, trimEnd, List.rdropWhile] using List.rdropWhile_prefix isTrimChar (trimStart t)
  exact dropWhile_of_prefix isTrimChar (trimStart t) (trim t) hpre
    (fun h => List.head_dropWhile_not isTrimChar t h)

theorem trim_idem (t : JsString) : trim (trim t) = trim t := by
  have h1 : trim (trim t) = trimEnd (trim t) := by
    conv_lhs => rw [trim, trimStart_trim]
  rw [h1]
  have h2 : trimEnd (trim t) = trim t := by
    have := List.rdropWhile_idempotent isTrimChar (trimStart t)
    simpa [trim, trimEnd, List.rdropWhile] using this
  exact h2

theorem asciiToLowerCase_trim_fixed (t : JsString) :
    trim (asciiToLowerCase (trim t)) = asciiToLowerCase (trim t) := by
  rw [trim_asciiToLowerCase, trim_idem]

/-! ## Pantry: invariant and the two transitions -/

theorem addIngredient_pantry (toLowerCase : JsString → JsString) (ing : JsString)
    (st : AppState) :
    (addIngredient toLowerCase ing st).pantry =
      if toLowerCase (trim ing) ≠ [] ∧ ¬ toLowerCase (trim ing) ∈ st.pantry then
        st.pantry ++ [toLowerCase (trim ing)]
      else st.pantry := by
  by_cases hc : toLowerCase (trim ing) ≠ [] ∧ ¬ toLowerCase (trim ing) ∈ st.pantry
  · simp only [addIngredient, if_pos hc]
  · simp only [addIngredient, if_neg hc]

theorem addIngredient_inv (toLowerCase : JsString → JsString) (ing : JsString)
    (st : AppState) (h : PantryInv toLowerCase st.pantry) :
    PantryInv toLowerCase (addIngredient toLowerCase ing st).pantry := by
  rw [addIngredient_pantry]
  split_ifs with hc
  · obtain ⟨hnd, hne, himg⟩ := h
    obtain ⟨hc1, hc2⟩ := hc
    refine ⟨?_, ?_, ?_⟩
    · rw [List.nodup_append]
      refine ⟨hnd, List.nodup_singleton _, ?_⟩
      intro a ha hb
      rw [List.mem_singleton] at hb
      subst hb
      exact hc2 ha
    · intro hmem
      rcases List.mem_append.mp hmem with hm | hm
      · exact hne hm
      · rw [List.mem_singleton] at hm
        exact hc1 hm.symm
    · intro e he
      rcases List.mem_append.mp he with hm | hm
      · exact himg e hm
      · rw [List.mem_singleton] at hm
        exact ⟨ing, hm⟩
  · exact h

theorem removeIngredient_inv (toLowerCase : JsString → JsString) (x : JsString)
    (st : AppState) (h : PantryInv toLowerCase st.pantry) :
    PantryInv toLowerCase (removeIngredient x st).pantry := by
  obtain ⟨hnd, hne, himg⟩ := h
  refine ⟨hnd.filter _, ?_, ?_⟩
  · intro hmem
    exact hne (List.mem_of_mem_filter hmem)
  · intro e he
    exact himg e (List.mem_of_mem_filter he)

theorem runActions_inv (toLowerCase : JsString → JsString) (acts : List PantryAction)
    (st : AppState) (h : PantryInv toLowerCase st.pantry) :
    PantryInv toLowerCase (runActions toLowerCase st acts).pantry := by
  induction acts generalizing st with
  | nil => exact h
  | cons a acts ih =>
    have hstep : PantryInv toLowerCase (applyAction toLowerCase st a).pantry := by
      cases a with
      | add ing => exact addIngredient_inv toLowerCase ing st h
      | remove ing => exact removeIngredient_inv toLowerCase ing st h
    exact ih (applyAction toLowerCase st a) hstep

theorem empty_inv (toLowerCase : JsString → JsString) (st : AppState)
    (hst : st.pantry = []) : PantryInv toLowerCase st.pantry := by
  rw [hst]
  exact ⟨List.nodup_nil, List.not_mem_nil _, fun e he => absurd he (List.not_mem_nil e)⟩

/-- C1. Every pantry reached from the empty one by a finite sequence of
`addIngredient` and `removeIngredient` calls, with arbitrary arguments, has no
duplicate and no empty entry; and, `toLowerCase` being idempotent and creating
no white space at either end of a trimmed text (as the built-in is), every entry
is trimmed, lower-case, and equal to its own trim-then-lowercase. -/
theorem pantry_reachable_invariant (toLowerCase : JsString → JsString) (st : AppState)
    (hst : st.pantry = []) (acts : List PantryAction) :
    (runActions toLowerCase st acts).pantry.Nodup ∧
    [] ∉ (runActions toLowerCase st acts).pantry ∧
    ((∀ t, toLowerCase (toLowerCase t) = toLowerCase t) →
     (∀ t, trim (toLowerCase (trim t)) = toLowerCase (trim t)) →
     ∀ e ∈ (runActions toLowerCase st acts).pantry,
       trim e = e ∧ toLowerCase e = e ∧ toLowerCase (trim e) = e) := by
  obtain ⟨hnd, hne, himg⟩ := runActions_inv toLowerCase acts st (empty_inv toLowerCase st hst)
  refine ⟨hnd, hne, ?_⟩
  intro hidem htrim e he
  obtain ⟨s, hs⟩ := himg e he
  have h1 : trim e = e := by rw [hs]; exact htrim s
  have h2 : toLowerCase e = e := by rw [hs]; exact hidem (trim s)
  exact ⟨h1, h2, by rw [h1, h2]⟩

/-- C1, at a concrete run from the initial state: add `" Egg "`, `"MILK"`,
`"egg"`, `"  "`, remove `"milk"`, add `"Rice\n"`, with the ASCII lower-casing. -/
theorem pantry_reachable_invariant_witness :
    (runActions asciiToLowerCase AppState.initial
        [PantryAction.add (lit " Egg "), PantryAction.add (lit "MILK"),
         PantryAction.add (lit "egg"), PantryAction.add (lit "  "),
         PantryAction.remove (lit "milk"), PantryAction.add (lit "Rice\n")]).pantry
      = [lit "egg", lit "rice"] ∧
    [lit "egg", lit "rice"].Nodup ∧ [] ∉ [lit "egg", lit "rice"] ∧
    ∀ e ∈ [lit "egg", lit "rice"],
      trim e = e ∧ asciiToLowerCase e = e ∧ asciiToLowerCase (trim e) = e := by
  have hrun : (runActions asciiToLowerCase AppState.initial
        [PantryAction.add (lit " Egg "), PantryAction.add (lit "MILK"),
         PantryAction.add (lit "egg"), PantryAction.add (lit "  "),
         PantryAction.remove (lit "milk"), PantryAction.add (lit "Rice\n")]).pantry
      = [lit "egg", lit "rice"] := by decide
  have h := pantry_reachable_invariant asciiToLowerCase AppState.initial rfl
    [PantryAction.add (lit " Egg "), PantryAction.add (lit "MILK"),
     PantryAction.add (lit "egg"), PantryAction.add (lit "  "),
     PantryAction.remove (lit "milk"), PantryAction.add (lit "Rice\n")]
  rw [hrun] at h
  exact ⟨hrun, h.1, h.2.1, h.2.2 asciiToLowerCase_idem asciiToLowerCase_trim_fixed⟩

/-- C2. `addIngredient(s)` with `n = toLowerCase(trim(s))`: when `n` is empty or
already in the pantry the pantry is unchanged; otherwise it is the old pantry
with `n` appended last; the input field is the empty string in every case. Adding
`"egg"`, `"egg"`, `" Egg "` in turn to the empty pantry gives `["egg"]` (for any
`toLowerCase` that sends `"egg"` and `"Egg"` to `"egg"`). -/
theorem addIngredient_spec (toLowerCase : JsString → JsString) (s : JsString)
    (st : AppState) :
    (addIngredient toLowerCase s st).inputValue = [] ∧
    ((toLowerCase (trim s) = [] ∨ toLowerCase (trim s) ∈ st.pantry) →
      (addIngredient toLowerCase s st).pantry = st.pantry) ∧
    (toLowerCase (trim s) ≠ [] → toLowerCase (trim s) ∉ st.pantry →
      (addIngredient toLowerCase s st).pantry = st.pantry ++ [toLowerCase (trim s)]) ∧
    (toLowerCase (lit "egg") = lit "egg" → toLowerCase (lit "Egg") = lit "egg" →
      (runActions toLowerCase AppState.initial
        [PantryAction.add (lit "egg"), PantryAction.add (lit "egg"),
         PantryAction.add (lit " Egg ")]).pantry = [lit "egg"]) := by
  refine ⟨rfl, ?_, ?_, ?_⟩
  · intro h
    rw [addIngredient_pantry, if_neg]
    rintro ⟨h1, h2⟩
    rcases h with h | h
    · exact h1 h
    · exact h2 h
  · intro h1 h2
    rw [addIngredient_pantry, if_pos ⟨h1, h2⟩]
  · intro hegg hEgg
    have t1 : trim (lit "egg") = lit "egg" := by decide
    have t2 : trim (lit " Egg ") = lit "Egg" := by decide
    have hne : lit "egg" ≠ [] := by decide
    simp [runActions, applyAction, addIngredient_pantry, addIngredient, t1, t2, hegg, hEgg,
      AppState.initial, hne]

/-- C2, at concrete inputs: adding `"Tomato "` to the pantry `["egg"]`, and the
`"egg"`, `"egg"`, `" Egg "` run, with the ASCII lower-casing. -/
theorem addIngredient_spec_witness :
    (addIngredient asciiToLowerCase (lit "Tomato ")
        { AppState.initial with pantry := [lit "egg"], inputValue := lit "Tomato " }).pantry
      = [lit "egg", lit "tomato"] ∧
    (runActions asciiToLowerCase AppState.initial
        [PantryAction.add (lit "egg"), PantryAction.add (lit "egg"),
         PantryAction.add (lit " Egg ")]).pantry = [lit "egg"] := by
  have h := addIngredient_spec asciiToLowerCase (lit "Tomato ")
    { AppState.initial with pantry := [lit "egg"], inputValue := lit "Tomato " }
  exact ⟨h.2.2.1 (by decide) (by decide), h.2.2.2 (by decide) (by decide)⟩

/-- C3. `removeIngredient(x)`: when `x` is not in the pantry the pantry is
unchanged; when it is, the new pantry no longer contains `x`, keeps every other
entry in the original order, and (a pantry holding no duplicate, as every
reachable one does) is shorter by exactly one. -/
theorem removeIngredient_spec (x : JsString) (st : AppState) :
    (x ∉ st.pantry → (removeIngredient x st).pantry = st.pantry) ∧
    (x ∈ st.pantry →
      x ∉ (removeIngredient x st).pantry ∧
      (removeIngredient x st).pantry.Sublist st.pantry ∧
      (∀ y, y ≠ x → (removeIngredient x st).pantry.count y = st.pantry.count y) ∧
      (st.pantry.Nodup →
        (removeIngredient x st).pantry.length = st.pantry.length - 1 ∧
        (removeIngredient x st).pantry = st.pantry.erase x)) := by
  refine ⟨?_, ?_⟩
  · intro h
    show st.pantry.filter (fun i => decide (i ≠ x)) = st.pantry
    rw [List.filter_eq_self]
    intro a ha
    have : a ≠ x := fun hax => h (hax ▸ ha)
    simpa using this
  · intro h
    have hfil : (removeIngredient x st).pantry = st.pantry.filter (fun i => decide (i ≠ x)) :=
      rfl
    refine ⟨?_, ?_, ?_, ?_⟩
    · rw [hfil]
      intro hmem
      have := (List.mem_filter.mp hmem).2
      simp at this
    · rw [hfil]
      exact List.filter_sublist _
    · intro y hy
      rw [hfil, List.count_filter]
      simpa using hy
    · intro hnd
      have herase : (removeIngredient x st).pantry = st.pantry.erase x := by
        rw [hfil, hnd.erase_eq_filter]
        apply List.filter_congr
        intro i _
        by_cases hi : i = x <;> simp [hi]
      refine ⟨?_, herase⟩
      rw [herase, List.length_erase_of_mem h]

/-- C3, at concrete inputs: removing `"egg"` from `["milk","egg","rice"]`. -/
theorem removeIngredient_spec_witness :
    ((removeIngredient (lit "egg")
        { AppState.initial with pantry := [lit "milk", lit "egg", lit "rice"] }).pantry
      = [lit "milk", lit "rice"]) ∧
    (removeIngredient (lit "egg")
        { AppState.initial with pantry := [lit "milk", lit "egg", lit "rice"] }).pantry.length
      = 3 - 1 := by
  have h := removeIngredient_spec (lit "egg")
    { AppState.initial with pantry := [lit "milk", lit "egg", lit "rice"] }
  have h2 := (h.2 (by decide)).2.2.2 (by decide)
  exact ⟨by decide, h2.1⟩

/-! ## Recipe search orchestration -/

theorem JsM.bind_eq {α β : Type} (m : JsM α) (f : α → JsM β) : (m >>= f) = JsM.andThen m f :=
  rfl

theorem JsM.pure_eq {α : Type} (a : α) : (pure a : JsM α) = JsM.ret a := rfl

theorem handleRecommend_primary_rejected (env : Env) (cp : List JsString) (w : World)
    (e : JsError) (h : env.recommend cp = Except.error e) :
    handleRecommend env cp w =
      (Except.ok (), recommendResult w [Request.recommend cp] [LogEntry.error e] w.ui.recipes) := by
  simp [handleRecommend, JsM.bind_eq, JsM.pure_eq, JsM.andThen, JsM.ret, JsM.tryCatch,
    JsM.modify, setLoading, setRecipes, consoleError, consoleLog, await, required, h,
    recommendResult]

theorem handleRecommend_two (env : Env) (cp : List JsString) (w : World)
    (rs : List RecipeResult) (h : env.recommend cp = Except.ok ⟨some rs⟩)
    (h2 : ¬ rs.length < 2) :
    handleRecommend env cp w =
      (Except.ok (), recommendResult w [Request.recommend cp] [] rs) := by
  simp [handleRecommend, JsM.bind_eq, JsM.pure_eq, JsM.andThen, JsM.ret, JsM.tryCatch,
    JsM.modify, setLoading, setRecipes, consoleError, consoleLog, await, required, h, h2,
    recommendResult]

theorem handleRecommend_primary_malformed (env : Env) (cp : List JsString) (w : World)
    (h : env.recommend cp = Except.ok ⟨none⟩) :
    handleRecommend env cp w =
      (Except.ok (), recommendResult w [Request.recommend cp]
        [LogEntry.error JsError.typeError] w.ui.recipes) := by
  simp [handleRecommend, JsM.bind_eq, JsM.pure_eq, JsM.andThen, JsM.ret, JsM.tryCatch,
    JsM.modify, JsM.raise, setLoading, setRecipes, consoleError, consoleLog, await, required, h,
    recommendResult]

theorem handleRecommend_web_rejected (env : Env) (cp : List JsString) (w : World)
    (rs : List RecipeResult) (e : JsError) (h : env.recommend cp = Except.ok ⟨some rs⟩)
    (h2 : rs.length < 2) (h3 : env.searchWeb cp = Except.error e) :
    handleRecommend env cp w =
      (Except.ok (), recommendResult w [Request.recommend cp, Request.searchWeb cp]
        [LogEntry.log (lit "Web search failed") e] rs) := by
  simp [handleRecommend, JsM.bind_eq, JsM.pure_eq, JsM.andThen, JsM.ret, JsM.tryCatch,
    JsM.modify, JsM.raise, setLoading, setRecipes, consoleError, consoleLog, await, required, h,
    h2, h3, recommendResult]

theorem handleRecommend_web_no_items (env : Env) (cp : List JsString) (w : World)
    (rs : List RecipeResult) (h : env.recommend cp = Except.ok ⟨some rs⟩)
    (h2 : rs.length < 2) (h3 : env.searchWeb cp = Except.ok ⟨none⟩) :
    handleRecommend env cp w =
      (Except.ok (), recommendResult w [Request.recommend cp, Request.searchWeb cp]
        [LogEntry.log (lit "Web search failed") JsError.typeError] rs) := by
  simp [handleRecommend, JsM.bind_eq, JsM.pure_eq, JsM.andThen, JsM.ret, JsM.tryCatch,
    JsM.modify, JsM.raise, setLoading, setRecipes, consoleError, consoleLog, await, required, h,
    h2, h3, recommendResult]

theorem handleRecommend_web_map_throws (env : Env) (cp : List JsString) (w : World)
    (rs : List RecipeResult) (its : List (Option WebItem)) (e : JsError)
    (h : env.recommend cp = Except.ok ⟨some rs⟩) (h2 : rs.length < 2)
    (h3 : env.searchWeb cp = Except.ok ⟨some its⟩) (h4 : mapWebItems its = Except.error e) :
    handleRecommend env cp w =
      (Except.ok (), recommendResult w [Request.recommend cp, Request.searchWeb cp]
        [LogEntry.log (lit "Web search failed") e] rs) := by
  simp [handleRecommend, JsM.bind_eq, JsM.pure_eq, JsM.andThen, JsM.ret, JsM.tryCatch,
    JsM.modify, JsM.raise, JsM.ofExcept, setLoading, setRecipes, consoleError, consoleLog, await,
    required, h, h2, h3, h4, recommendResult]

theorem handleRecommend_web_ok (env : Env) (cp : List JsString) (w : World)
    (rs : List RecipeResult) (its : List (Option WebItem)) (ws : List RecipeResult)
    (h : env.recommend cp = Except.ok ⟨some rs⟩) (h2 : rs.length < 2)
    (h3 : env.searchWeb cp = Except.ok ⟨some its⟩) (h4 : mapWebItems its = Except.ok ws) :
    handleRecommend env cp w =
      (Except.ok (), recommendResult w [Request.recommend cp, Request.searchWeb cp] []
        (rs ++ ws)) := by
  simp [handleRecommend, JsM.bind_eq, JsM.pure_eq, JsM.andThen, JsM.ret, JsM.tryCatch,
    JsM.modify, JsM.raise, JsM.ofExcept, setLoading, setRecipes, consoleError, consoleLog, await,
    required, h, h2, h3, h4, recommendResult]

/-- Every outcome of the two calls: `handleRecommend` completes normally, in a
world of the shape `recommendResult`, having issued the recommend request and
possibly the web-search request after it. -/
theorem handleRecommend_total (env : Env) (cp : List JsString) (w : World) :
    ∃ reqs logs recipes,
      handleRecommend env cp w = (Except.ok (), recommendResult w reqs logs recipes) ∧
      (reqs = [Request.recommend cp] ∨
        (reqs = [Request.recommend cp, Request.searchWeb cp] ∧
          ∃ rs, env.recommend cp = Except.ok ⟨some rs⟩ ∧ rs.length < 2)) := by
  cases h : env.recommend cp with
  | error e => exact ⟨_, _, _, handleRecommend_primary_rejected env cp w e h, Or.inl rfl⟩
  | ok res =>
    obtain ⟨recipes⟩ := res
    cases recipes with
    | none => exact ⟨_, _, _, handleRecommend_primary_malformed env cp w h, Or.inl rfl⟩
    | some rs =>
      by_cases h2 : rs.length < 2
      · cases h3 : env.searchWeb cp with
        | error e =>
          exact ⟨_, _, _, handleRecommend_web_rejected env cp w rs e h h2 h3,
            Or.inr ⟨rfl, rs, rfl, h2⟩⟩
        | ok webRes =>
          obtain ⟨items⟩ := webRes
          cases items with
          | none =>
            exact ⟨_, _, _, handleRecommend_web_no_items env cp w rs h h2 h3,
              Or.inr ⟨rfl, rs, rfl, h2⟩⟩
          | some its =>
            cases h4 : mapWebItems its with
            | error e =>
              exact ⟨_, _, _, handleRecommend_web_map_throws env cp w rs its e h h2 h3 h4,
                Or.inr ⟨rfl, rs, rfl, h2⟩⟩
            | ok ws =>
              exact ⟨_, _, _, handleRecommend_web_ok env cp w rs its ws h h2 h3 h4,
                Or.inr ⟨rfl, rs, rfl, h2⟩⟩
      · exact ⟨_, _, _, handleRecommend_two env cp w rs h h2, Or.inl rfl⟩

theorem digitChar_toNat (m : Nat) (h : m < 10) : (Nat.digitChar m).toNat = 48 + m := by
  interval_cases m <;> rfl

theorem decimalValue_append_one (ds : JsString) (c : Nat) :
    decimalValue (ds ++ [c]) = 10 * decimalValue ds + (c - 48) := by
  simp [decimalValue, List.foldl_append]

/-- The digits that `Nat.toDigitsCore` puts in front of its accumulator, given
enough fuel, are the decimal numeral of its argument. -/
theorem toDigitsCore_decimal (fuel : Nat) :
    ∀ (n : Nat) (acc : List Char), n < fuel →
      ∃ ds : JsString,
        (Nat.toDigitsCore 10 fuel n acc).map Char.toNat = ds ++ acc.map Char.toNat ∧
        ds ≠ [] ∧ (∀ c ∈ ds, 48 ≤ c ∧ c ≤ 57) ∧ decimalValue ds = n ∧
        (n ≠ 0 → ds.head? ≠ some 48) ∧ (n = 0 → ds = [48]) := by
  induction fuel with
  | zero => intro n acc h; exact absurd h (Nat.not_lt_zero n)
  | succ fuel ih =>
    intro n acc h
    have hmod : n % 10 < 10 := Nat.mod_lt n (by decide)
    have hd : (Nat.digitChar (n % 10)).toNat = 48 + n % 10 := digitChar_toNat (n % 10) hmod
    by_cases h0 : n / 10 = 0
    · have hn : n < 10 := by omega
      have hnm : n % 10 = n := Nat.mod_eq_of_lt hn
      refine ⟨[48 + n], ?_, by simp, ?_, ?_, ?_, ?_⟩
      · rw [hnm] at hd
        simp [Nat.toDigitsCore, h0, hd, hnm]
      · intro c hc
        rw [List.mem_singleton] at hc
        omega
      · simp [decimalValue]
      · intro hne hh
        simp at hh
        exact hne hh
      · intro hz
        simp [hz]
    · have hlt : n / 10 < fuel := by omega
      obtain ⟨ds, hds, hne, hdig, hval, hhead, _⟩ :=
        ih (n / 10) (Nat.digitChar (n % 10) :: acc) hlt
      refine ⟨ds ++ [48 + n % 10], ?_, by simp, ?_, ?_, ?_, ?_⟩
      · simp only [Nat.toDigitsCore, h0, if_false]
        rw [hds]
        simp [hd]
      · intro c hc
        rcases List.mem_append.mp hc with hc | hc
        · exact hdig c hc
        · rw [List.mem_singleton] at hc
          omega
      · rw [decimalValue_append_one, hval]
        omega
      · intro _ hh
        cases ds with
        | nil => exact hne rfl
        | cons a l => exact hhead h0 (by simpa using hh)
      · intro hz
        exact absurd (by simp [hz]) h0

theorem indexText_isDecimalOf (n : Nat) : IsDecimalOf (indexText n) n := by
  obtain ⟨ds, hds, hne, hdig, hval, hhead, hzero⟩ :=
    toDigitsCore_decimal (n + 1) n [] (Nat.lt_succ_self n)
  have heq : indexText n = ds := by
    simpa [indexText, Nat.toDigits] using hds
  rw [heq]
  refine ⟨hne, hdig, hval, ?_⟩
  intro hh
  by_cases hn : n = 0
  · exact hzero hn
  · exact absurd hh (hhead hn)

theorem mapWebItemsFrom_some (items : List WebItem) (k : Nat) :
    ∃ ws, mapWebItemsFrom k (items.map some) = Except.ok ws ∧
      ws.length = items.length ∧
      ∀ i (hi : i < items.length), ws[i]? = some (webItemToRecipe (items.get ⟨i, hi⟩) (k + i)) := by
  induction items generalizing k with
  | nil => exact ⟨[], rfl, rfl, fun i hi => absurd hi (Nat.not_lt_zero i)⟩
  | cons it rest ih =>
    obtain ⟨ws, hws, hlen, hget⟩ := ih (k + 1)
    refine ⟨webItemToRecipe it k :: ws, ?_, ?_, ?_⟩
    · simp [mapWebItemsFrom, hws]
    · simp [hlen]
    · intro i hi
      cases i with
      | zero => simp
      | succ j =>
        have hj : j < rest.length := by simpa using hi
        have := hget j hj
        simp only [List.getElem?_cons_succ, List.get_cons_succ, this]
        congr 2
        omega

theorem mapWebItemsFrom_null (items : List (Option WebItem)) (k : Nat) (h : none ∈ items) :
    mapWebItemsFrom k items = Except.error JsError.typeError := by
  induction items generalizing k with
  | nil => exact absurd h (List.not_mem_nil _)
  | cons it rest ih =>
    cases it with
    | none => rfl
    | some item =>
      have hrest : none ∈ rest := by
        rcases List.mem_cons.mp h with h0 | h0
        · exact absurd h0 (by simp)
        · exact h0
      simp [mapWebItemsFrom, ih (k + 1) hrest]

/-- C4. A recommend response with fewer than 2 recipes and a successful
web search with items `w_0 .. w_(k-1)`: the recipe list becomes the local recipes
followed by `k` web entries in the order of the web items, the `i`-th with id
`"web-"` followed by the decimal numeral of `i`, the name of `w_i`, cuisine
`"Web Discovery"`, no required ingredient and the url of `w_i` as image; its
length is the number of local recipes plus `k`. -/
theorem handleRecommend_web_merge (env : Env) (cp : List JsString) (w : World)
    (locals : List RecipeResult) (items : List WebItem)
    (h1 : env.recommend cp = Except.ok ⟨some locals⟩) (h2 : locals.length < 2)
    (h3 : env.searchWeb cp = Except.ok ⟨some (items.map some)⟩) :
    (handleRecommend env cp w).1 = Except.ok () ∧
    (handleRecommend env cp w).2.ui.recipes.length = locals.length + items.length ∧
    (handleRecommend env cp w).2.ui.recipes.take locals.length = locals ∧
    ∀ i (hi : i < items.length), ∃ r,
      (handleRecommend env cp w).2.ui.recipes[locals.length + i]? = some r ∧
      (∃ ds, r.id = RecipeId.str ([119, 101, 98, 45] ++ ds) ∧ IsDecimalOf ds i) ∧
      r.name = (items.get ⟨i, hi⟩).name ∧
      r.cuisine = lit "Web Discovery" ∧
      r.required_ingredients = [] ∧
      r.image = some (items.get ⟨i, hi⟩).url := by
  obtain ⟨ws, hws, hlen, hget⟩ := mapWebItemsFrom_some items 0
  rw [handleRecommend_web_ok env cp w locals (items.map some) ws h1 h2 h3 hws]
  refine ⟨rfl, ?_, ?_, ?_⟩
  · simp [recommendResult, hlen]
  · simp [recommendResult]
  · intro i hi
    refine ⟨webItemToRecipe (items.get ⟨i, hi⟩) i, ?_,
      ⟨indexText i, rfl, indexText_isDecimalOf i⟩, rfl, rfl, rfl, rfl⟩
    have := hget i hi
    simp only [Nat.zero_add] at this
    simp [recommendResult, List.getElem?_append_right, this]

/-- C4, worked runs. Local `[{id:1, match_ratio:1, ...}]` and web items
`[{name:"X", url:"u"}]` give a 2-entry list whose second entry has id `"web-0"`
and cuisine `"Web Discovery"`. No local recipe and twelve web items give twelve
entries with ids `"web-0"`, `"web-1"`, ... , `"web-11"`, names and images in the
order of the items. -/
theorem handleRecommend_web_merge_witness :
    ((handleRecommend demoEnv [lit "egg"] World.initial).2.ui.recipes.length = 2 ∧
      ∃ r, (handleRecommend demoEnv [lit "egg"] World.initial).2.ui.recipes[1]? = some r ∧
        (∃ ds, r.id = RecipeId.str ([119, 101, 98, 45] ++ ds) ∧ IsDecimalOf ds 0) ∧
        r.name = lit "X" ∧ r.cuisine = lit "Web Discovery" ∧ r.required_ingredients = [] ∧
        r.image = some (lit "u")) ∧
    (handleRecommend demoEnv [lit "egg"] World.initial).2.ui.recipes =
      [omelette,
       { id := RecipeId.str (lit "web-0"), name := lit "X", cuisine := lit "Web Discovery",
         match_ratio := JsNumber.pointSix, required_ingredients := [],
         steps := some (lit "Click link to view source"), image := some (lit "u") }] ∧
    (handleRecommend manyWebEnv [lit "egg"] World.initial).2.ui.recipes.map
        (fun r => (r.id, r.name, r.image)) =
      [(RecipeId.str (lit "web-0"), lit "X", some (lit "u")),
       (RecipeId.str (lit "web-1"), lit "Y", some (lit "v")),
       (RecipeId.str (lit "web-2"), lit "X", some (lit "u")),
       (RecipeId.str (lit "web-3"), lit "Y", some (lit "v")),
       (RecipeId.str (lit "web-4"), lit "X", some (lit "u")),
       (RecipeId.str (lit "web-5"), lit "Y", some (lit "v")),
       (RecipeId.str (lit "web-6"), lit "X", some (lit "u")),
       (RecipeId.str (lit "web-7"), lit "Y", some (lit "v")),
       (RecipeId.str (lit "web-8"), lit "X", some (lit "u")),
       (RecipeId.str (lit "web-9"), lit "Y", some (lit "v")),
       (RecipeId.str (lit "web-10"), lit "X", some (lit "u")),
       (RecipeId.str (lit "web-11"), lit "Y", some (lit "v"))] := by
  have h := handleRecommend_web_merge demoEnv [lit "egg"] World.initial [omelette] [webX]
    rfl (by decide) rfl
  exact ⟨⟨h.2.1, h.2.2.2 0 (by decide)⟩, by decide, by decide⟩

/-- C5. A recommend response with 2 or more recipes: the only request issued is
the recommend one, and the recipe list becomes exactly the recipes of the
response. Conversely, whatever the backend answers, a web-search request is
issued only when the recommend call succeeded with fewer than 2 recipes. -/
theorem handleRecommend_enough_local (env : Env) (cp : List JsString) (w : World) :
    (∀ rs, env.recommend cp = Except.ok ⟨some rs⟩ → 2 ≤ rs.length →
      (handleRecommend env cp w).2.requests = w.requests ++ [Request.recommend cp] ∧
      (handleRecommend env cp w).2.ui.recipes = rs) ∧
    (∀ q, Request.searchWeb q ∈ (handleRecommend env cp w).2.requests.drop w.requests.length →
      ∃ rs, env.recommend cp = Except.ok ⟨some rs⟩ ∧ rs.length < 2) := by
  refine ⟨?_, ?_⟩
  · intro rs h h2
    rw [handleRecommend_two env cp w rs h (by omega)]
    exact ⟨rfl, rfl⟩
  · intro q hq
    obtain ⟨reqs, logs, recipes, hrun, hreqs⟩ := handleRecommend_total env cp w
    rcases hreqs with hr | ⟨_, hlt⟩
    · rw [hrun, hr] at hq
      simp [recommendResult] at hq
    · exact hlt

/-- C5, a worked run: two local matches, one request, the list is the two. -/
theorem handleRecommend_enough_local_witness :
    (handleRecommend twoLocalEnv [lit "egg"] World.initial).2.requests
      = [Request.recommend [lit "egg"]] ∧
    (handleRecommend twoLocalEnv [lit "egg"] World.initial).2.ui.recipes
      = [omelette, friedRice] :=
  (handleRecommend_enough_local twoLocalEnv [lit "egg"] World.initial).1
    [omelette, friedRice] rfl (by decide)

/-- C6, at the item `{name: "X", score: 0, url: "u"}`: the item provides the
score `0`, and the recipe built from it has match ratio `0.6`, not `0`. An item
without score gets `0.6`, and a score that is neither zero nor NaN is kept. -/
theorem webItemToRecipe_zero_score :
    webZeroScore.score = some JsNumber.zero ∧
    (webItemToRecipe webZeroScore 0).match_ratio = JsNumber.pointSix ∧
    JsNumber.pointSix ≠ JsNumber.zero ∧
    (webItemToRecipe webX 0).match_ratio = JsNumber.pointSix ∧
    (∀ (item : WebItem) (idx : Nat) (s : JsNumber), item.score = some s →
      s.toBoolean = true → (webItemToRecipe item idx).match_ratio = s) := by
  refine ⟨rfl, by decide, by decide, by decide, ?_⟩
  intro item idx s hs ht
  simp [webItemToRecipe, hs, ht]

/-- C7, at the item `{name: "X", instructions: [], url: "u"}`: the instructions
list is present and empty, and the recipe built from it has no steps
(`undefined`). An item without instructions gets the placeholder, and a
non-empty list gives its first line. -/
theorem webItemToRecipe_empty_instructions :
    webNoSteps.instructions = some [] ∧
    (webItemToRecipe webNoSteps 0).steps = none ∧
    (webItemToRecipe webX 0).steps = some (lit "Click link to view source") ∧
    (∀ (item : WebItem) (idx : Nat) (first : JsString) (more : List JsString),
      item.instructions = some (first :: more) →
      (webItemToRecipe item idx).steps = some first) := by
  refine ⟨rfl, by decide, by decide, ?_⟩
  intro item idx first more h
  simp [webItemToRecipe, h]

/-- C8. A recommend response with fewer than 2 recipes and a failed web search
(the request is rejected, the response has no `items`, or an item is `null`):
no exception escapes, the recipe list becomes exactly the local recipes (empty
when there was none), and the loading flag ends false. -/
theorem handleRecommend_web_failure (env : Env) (cp : List JsString) (w : World)
    (locals : List RecipeResult)
    (h1 : env.recommend cp = Except.ok ⟨some locals⟩) (h2 : locals.length < 2)
    (h3 : (∃ e, env.searchWeb cp = Except.error e) ∨
      env.searchWeb cp = Except.ok ⟨none⟩ ∨
      ∃ its, env.searchWeb cp = Except.ok ⟨some its⟩ ∧ none ∈ its) :
    (handleRecommend env cp w).1 = Except.ok () ∧
    (handleRecommend env cp w).2.ui.recipes = locals ∧
    (handleRecommend env cp w).2.ui.loading = false ∧
    (locals = [] → (handleRecommend env cp w).2.ui.recipes = []) := by
  have key : (handleRecommend env cp w).1 = Except.ok () ∧
      (handleRecommend env cp w).2.ui.recipes = locals ∧
      (handleRecommend env cp w).2.ui.loading = false := by
    rcases h3 with ⟨e, he⟩ | hn | ⟨its, hits, hnull⟩
    · rw [handleRecommend_web_rejected env cp w locals e h1 h2 he]
      exact ⟨rfl, rfl, rfl⟩
    · rw [handleRecommend_web_no_items env cp w locals h1 h2 hn]
      exact ⟨rfl, rfl, rfl⟩
    · rw [handleRecommend_web_map_throws env cp w locals its JsError.typeError h1 h2 hits
        (mapWebItemsFrom_null its 0 hnull)]
      exact ⟨rfl, rfl, rfl⟩
  exact ⟨key.1, key.2.1, key.2.2, fun h0 => by rw [key.2.1, h0]⟩

/-- C8, a worked run: no local match, a web response holding a `null`, from a
state that showed a recipe. -/
theorem handleRecommend_web_failure_witness :
    (handleRecommend webBrokenEnv [lit "egg"]
        { World.initial with ui := { AppState.initial with recipes := [omelette] } }).1
      = Except.ok () ∧
    (handleRecommend webBrokenEnv [lit "egg"]
        { World.initial with ui := { AppState.initial with recipes := [omelette] } }).2.ui.recipes
      = [] ∧
    (handleRecommend webBrokenEnv [lit "egg"]
        { World.initial with ui := { AppState.initial with recipes := [omelette] } }).2.ui.loading
      = false := by
  have h := handleRecommend_web_failure webBrokenEnv [lit "egg"]
    { World.initial with ui := { AppState.initial with recipes := [omelette] } } []
    rfl (by decide) (Or.inr (Or.inr ⟨[some webX, none], rfl, by decide⟩))
  exact ⟨h.1, h.2.1, h.2.2.1⟩

/-- C9. On every outcome of the two calls `handleRecommend` completes without
an exception and with the loading flag false. When the recommend call fails
(the promise is rejected, or the response has no `recipes`), the recipe list is
left as it was and the recommend request is the only one issued. -/
theorem handleRecommend_primary_failure (env : Env) (cp : List JsString) (w : World) :
    ((handleRecommend env cp w).1 = Except.ok () ∧
      (handleRecommend env cp w).2.ui.loading = false) ∧
    (((∃ e, env.recommend cp = Except.error e) ∨ env.recommend cp = Except.ok ⟨none⟩) →
      (handleRecommend env cp w).2.ui.recipes = w.ui.recipes ∧
      (handleRecommend env cp w).2.requests = w.requests ++ [Request.recommend cp]) := by
  refine ⟨?_, ?_⟩
  · obtain ⟨reqs, logs, recipes, hrun, _⟩ := handleRecommend_total env cp w
    rw [hrun]
    exact ⟨rfl, rfl⟩
  · rintro (⟨e, he⟩ | hn)
    · rw [handleRecommend_primary_rejected env cp w e he]
      exact ⟨rfl, rfl⟩
    · rw [handleRecommend_primary_malformed env cp w hn]
      exact ⟨rfl, rfl⟩

/-- C9, a worked run: the recommend call is rejected while a recipe is shown. -/
theorem handleRecommend_primary_failure_witness :
    (handleRecommend downEnv [lit "egg"]
        { World.initial with ui := { AppState.initial with recipes := [omelette] } }).2.ui.recipes
      = [omelette] ∧
    (handleRecommend downEnv [lit "egg"]
        { World.initial with ui := { AppState.initial with recipes := [omelette] } }).2.requests
      = [Request.recommend [lit "egg"]] :=
  (handleRecommend_primary_failure downEnv [lit "egg"]
    { World.initial with ui := { AppState.initial with recipes := [omelette] } }).2
    (Or.inl ⟨JsError.rejected, rfl⟩)

/-! ## Restaurant search -/

theorem searchRestaurants_ok (env : Env) (c : JsString) (w : World) (res : RestaurantResponse)
    (h : env.restaurants c = Except.ok res) :
    searchRestaurants env c w =
      (Except.ok (),
        { ui := { w.ui with restaurants := res.results, resLoading := false },
          requests := w.requests ++ [Request.restaurantSearch c defaultLat defaultLng],
          console := w.console }) := by
  simp [searchRestaurants, JsM.bind_eq, JsM.andThen, JsM.tryCatch, JsM.modify, setResLoading,
    setRestaurants, consoleError, await, h]

theorem searchRestaurants_rejected (env : Env) (c : JsString) (w : World) (e : JsError)
    (h : env.restaurants c = Except.error e) :
    searchRestaurants env c w =
      (Except.ok (),
        { ui := { w.ui with resLoading := false },
          requests := w.requests ++ [Request.restaurantSearch c defaultLat defaultLng],
          console := w.console ++ [LogEntry.error e] }) := by
  simp [searchRestaurants, JsM.bind_eq, JsM.andThen, JsM.tryCatch, JsM.modify, setResLoading,
    setRestaurants, consoleError, await, h]

/-- C10, as stated, fails: after a search for `"Italian"` has listed a
restaurant, a rejected search for `"Greek"` leaves that restaurant listed; the
list is not empty after the failed call. -/
theorem searchRestaurants_failure_not_empty :
    demoEnv.restaurants (lit "Greek") = Except.error JsError.rejected ∧
    (searchRestaurants demoEnv (lit "Italian") World.initial).2.ui.restaurants = [pizzeria] ∧
    (searchRestaurants demoEnv (lit "Greek")
        (searchRestaurants demoEnv (lit "Italian") World.initial).2).2.ui.restaurants
      = [pizzeria] ∧
    (searchRestaurants demoEnv (lit "Greek")
        (searchRestaurants demoEnv (lit "Italian") World.initial).2).2.ui.restaurants ≠ [] := by
  refine ⟨rfl, by decide, by decide, by decide⟩

/-- C10, amended. `searchRestaurants` raises no exception and ends with the
restaurant loading flag false; on success the restaurant list is replaced by the
results of the response (empty for an empty `results`); on failure the
restaurant list is left as it was before the call. -/
theorem searchRestaurants_spec (env : Env) (c : JsString) (w : World) :
    ((searchRestaurants env c w).1 = Except.ok () ∧
      (searchRestaurants env c w).2.ui.resLoading = false) ∧
    (∀ res, env.restaurants c = Except.ok res →
      (searchRestaurants env c w).2.ui.restaurants = res.results ∧
      (res.results = [] → (searchRestaurants env c w).2.ui.restaurants = [])) ∧
    (∀ e, env.restaurants c = Except.error e →
      (searchRestaurants env c w).2.ui.restaurants = w.ui.restaurants) := by
  refine ⟨?_, ?_, ?_⟩
  · cases h : env.restaurants c with
    | error e =>
      rw [searchRestaurants_rejected env c w e h]
      exact ⟨rfl, rfl⟩
    | ok res =>
      rw [searchRestaurants_ok env c w res h]
      exact ⟨rfl, rfl⟩
  · intro res h
    rw [searchRestaurants_ok env c w res h]
    exact ⟨rfl, fun h0 => h0⟩
  · intro e h
    rw [searchRestaurants_rejected env c w e h]

/-- C10, worked runs: `"Thai"` answers `results: []` while a restaurant is
listed, and the list becomes empty; `"Greek"` is rejected, and the list stays. -/
theorem searchRestaurants_spec_witness :
    (searchRestaurants demoEnv (lit "Thai")
        (searchRestaurants demoEnv (lit "Italian") World.initial).2).2.ui.restaurants = [] ∧
    (searchRestaurants demoEnv (lit "Greek")
        (searchRestaurants demoEnv (lit "Italian") World.initial).2).2.ui.restaurants
      = (searchRestaurants demoEnv (lit "Italian") World.initial).2.ui.restaurants :=
  ⟨((searchRestaurants_spec demoEnv (lit "Thai")
      (searchRestaurants demoEnv (lit "Italian") World.initial).2).2.1 ⟨[]⟩ rfl).1,
   (searchRestaurants_spec demoEnv (lit "Greek")
      (searchRestaurants demoEnv (lit "Italian") World.initial).2).2.2 JsError.rejected
      rfl⟩

end SmartEats
